import Mathlib

/-!
# Verification of the munin PGP-expiration plugin core (`src/main.rs`)

Shallow embedding of the plugin's data model and operations:

* `clean_fieldname` — the field-name sanitizer (regex
  `(^[^A-Za-z_]|[^A-Za-z0-9_])` replaced by `_`), embedded character by
  character.
* `get_days_to_expiration` — the per-identity expiration evaluator, over an
  abstract model of the WKD fetch (`get_cert`) and of the certificate's key
  list as exposed by `keys().with_policy(..).revoked(false)`.
* `cron` / `get_results` — the refresh batch and the cached-snapshot loader,
  embedded as pure functions over an explicit environment (environment
  variables, state-file contents, per-identity fetch outcomes) that also
  return the trace of network/file events the run performs.
* `encode` / `decode` — the snapshot serialization (the `ron` crate in the
  source), modelled as a concrete self-describing text encoding with a
  verified parser.
* `config` / `fetch` — the two output modes, embedded as the list of lines
  they print.

Machine integers (`i64` day counts) are modelled as `Int`; timestamps are
seconds as `Int`, and chrono's `Duration::num_days` is division by 86400
truncating toward zero (`Int.tdiv`).
-/

namespace MuninPgp

/-! ## Field-name sanitization (`clean_fieldname`, main.rs lines 110–116)

The Rust function applies `Regex::replace_all` with pattern
`(^[^A-Za-z_]|[^A-Za-z0-9_])` and replacement `_`.  Every match of that
pattern is a single character: the first alternative matches the character at
position 0 when it is outside `[A-Za-z_]` (the anchor `^` only matches at the
start of the haystack), the second matches any character outside
`[A-Za-z0-9_]` at any position.  Since `[A-Za-z_] ⊆ [A-Za-z0-9_]`, the
combined effect is: the character at position 0 is replaced by `_` iff it is
outside `[A-Za-z_]`, and every later character is replaced by `_` iff it is
outside `[A-Za-z0-9_]`. -/

/-- `[A-Za-z0-9_]`: the characters the sanitizer keeps in non-leading
position. -/
def isWordChar (c : Char) : Bool :=
  (('A' ≤ c && c ≤ 'Z') || ('a' ≤ c && c ≤ 'z') || ('0' ≤ c && c ≤ '9') || c = '_')

/-- `[A-Za-z_]`: the characters the sanitizer keeps in leading position. -/
def isLeadChar (c : Char) : Bool :=
  (('A' ≤ c && c ≤ 'Z') || ('a' ≤ c && c ≤ 'z') || c = '_')

/-- Embedding of `clean_fieldname`: replace the leading character by `_` when
it is outside `[A-Za-z_]`, and every later character by `_` when it is
outside `[A-Za-z0-9_]` (the per-character reading of
`replace_all` with `(^[^A-Za-z_]|[^A-Za-z0-9_])` → `_`). -/
def clean_fieldname (text : String) : String :=
  match text.data with
  | [] => ""
  | c :: rest =>
    String.mk ((if isLeadChar c then c else '_') ::
      rest.map (fun d => if isWordChar d then d else '_'))

/-- The sanitizer as the *spec* words it (for the refinement comparison in
C1): first replace every character outside `[A-Za-z0-9_]` by `_`, then, if
the result does not start with a letter or underscore, *prepend* a leading
`_`. -/
def spec_clean_fieldname (text : String) : String :=
  let sanitized := text.data.map (fun d => if isWordChar d then d else '_')
  match sanitized with
  | [] => ""
  | c :: _ => if isLeadChar c then String.mk sanitized else String.mk ('_' :: sanitized)

/-! ## Per-identity evaluation (`get_cert` + `get_days_to_expiration`,
main.rs lines 15–53)

The certificate is external data (sequoia's `Cert`): we model exactly what
`get_days_to_expiration` consumes from it, namely the key list as filtered by
`keys().with_policy(pgp_policy, Some(now)).revoked(false)` and each key's
`key_expiration_time()`. -/

/-- One key of a certificate, as seen through the sequoia key iterator:
whether it satisfies the verification policy at the reference time
(`with_policy(pgp_policy, Some(now))`), whether it is revoked
(`.revoked(false)` keeps the non-revoked ones), and its optional expiration
timestamp in seconds (`key_expiration_time()`). -/
structure Key where
  policyOk : Bool
  revoked : Bool
  expiration : Option Int
deriving DecidableEq

/-- A certificate is its list of keys. -/
abbrev Cert := List Key

/-- Outcome of `get_cert` for one email: the email address may fail before
any network request is sent (`wkd::Url::from` / `to_url` errors), the
request may be sent and then fail (send error, non-2xx status, unreadable
body, unparsable certificate), or a certificate is obtained. -/
inductive FetchOutcome where
  | noRequest (msg : String)
  | failed (msg : String)
  | cert (c : Cert)
deriving DecidableEq

/-- Result of `File::open` on the state file: contents on success, or an
error, of which `notFound` is the kind `io::ErrorKind::NotFound`. -/
inductive OpenResult where
  | ok (contents : List Char)
  | notFound
  | otherError
deriving DecidableEq

/-- The external world of one batch: environment variables, per-email fetch
outcomes, and the state file. `emails` is env `emails`; `plugstate` is env
`MUNIN_PLUGSTATE`; `resolver` gives `get_cert`'s outcome per email;
`stateOpen` is the result of `File::open` on the state file; `createOk` and
`writeOk` are whether `File::create` and the serializing write succeed. -/
structure Env where
  emails : Option String
  plugstate : Option String
  resolver : String → FetchOutcome
  stateOpen : OpenResult
  createOk : Bool
  writeOk : Bool

/-- The day-differences the evaluator folds over: for each key kept by the
policy/revocation filter that declares an expiration,
`(expiration - now).num_days()` — seconds difference divided by 86400,
truncating toward zero. -/
def eligibleDays (c : Cert) (now : Int) : List Int :=
  ((c : List Key).filter (fun k => k.policyOk && !k.revoked)).filterMap
    (fun k => k.expiration.map (fun t => Int.tdiv (t - now) 86400))

/-- Embedding of `get_days_to_expiration`: resolve the certificate (any
`get_cert` failure propagates as an error, with the
`"Failed to get certificate"` context), then take the minimum day-difference
across eligible keys with an expiration (`Iterator::min`, i.e. `none` when no
eligible key declares one). -/
def get_days_to_expiration (resolver : String → FetchOutcome) (email : String)
    (now : Int) : Except String (Option Int) :=
  match resolver email with
  | .noRequest msg => .error ("Failed to get certificate: " ++ msg)
  | .failed msg => .error ("Failed to get certificate: " ++ msg)
  | .cert c => .ok (eligibleDays c now).min?

deriving instance DecidableEq for Except

/-- The per-identity record of the snapshot (`struct KeyInfo`):
`days_to_expiration` is `Result<Option<i64>, String>` — `.ok (some d)` for a
day count, `.ok none` for "no eligible key expires", `.error msg` for a
failed resolution. -/
structure KeyInfo where
  email : String
  days_to_expiration : Except String (Option Int)
deriving DecidableEq

/-! ## Snapshot serialization (`ron::ser::to_writer_pretty` /
`ron::de::from_reader`, main.rs lines 93–98 and 105)

The serializer is the external `ron` crate, not code of this repository.
Modelled from the spec: "Format is an implementation detail (a
self-describing structured text or binary encoding); the only contract is
that `save` followed by `load` reproduces the same ordered outcome
sequence."  The encoding below mirrors RON's syntax for `Vec<KeyInfo>`
(a bracketed sequence of named-field structs, `Ok`/`Err`/`Some`/`None`
variant tags, double-quoted strings with backslash escapes, decimal
integers), and `decode` is an executable parser for it. -/

/-- The decimal digit character for a digit value. -/
def digitChar (d : Nat) : Char := Char.ofNat (48 + d)

/-- The digit value of a decimal digit character. -/
def charDigit (c : Char) : Nat := c.toNat - 48

/-- Whether a character is an ASCII decimal digit. -/
def isDigitChar (c : Char) : Bool := ('0' ≤ c && c ≤ '9')

/-- Whether a character list starts with a decimal digit. -/
def headIsDigit : List Char → Bool
  | [] => false
  | c :: _ => isDigitChar c

/-- Decimal encoding of a natural number, most significant digit first. -/
def encNat (n : Nat) : List Char :=
  if n = 0 then ['0'] else ((Nat.digits 10 n).reverse).map digitChar

/-- Decimal encoding of an integer (`i64` day counts), with `-` sign. -/
def encInt (i : Int) : List Char :=
  if i < 0 then '-' :: encNat i.natAbs else encNat i.natAbs

/-- String-literal encoding of one character: `"` and `\` are
backslash-escaped. -/
def encStrChar (c : Char) : List Char :=
  if c = '"' ∨ c = '\\' then ['\\', c] else [c]

/-- Double-quoted string literal encoding. -/
def encStr (s : String) : List Char :=
  '"' :: s.data.flatMap encStrChar ++ ['"']

/-- Encoding of the `days_to_expiration` field
(`Result<Option<i64>, String>`). -/
def encResult (r : Except String (Option Int)) : List Char :=
  match r with
  | .ok none => "Ok(None)".data
  | .ok (some d) => "Ok(Some(".data ++ encInt d ++ "))".data
  | .error e => "Err(".data ++ encStr e ++ ")".data

/-- Encoding of one `KeyInfo` record. -/
def encEntry (ki : KeyInfo) : List Char :=
  "(email:".data ++ encStr ki.email ++ ",days:".data ++
    encResult ki.days_to_expiration ++ ")".data

/-- Encoding of a whole snapshot (`Vec<KeyInfo>`). -/
def encode (s : List KeyInfo) : List Char :=
  '[' :: ((s.flatMap (fun e => encEntry e ++ [','])) ++ [']'])

/-- Consume an expected literal from the front of the input. -/
def dropLit : List Char → List Char → Option (List Char)
  | [], input => some input
  | _ :: _, [] => none
  | c :: lit, d :: input => if c = d then dropLit lit input else none

/-- Parse the body of a string literal after the opening quote, undoing
backslash escapes, up to the closing quote. -/
def parseStrAux : List Char → Option (List Char × List Char)
  | [] => none
  | c :: rest =>
    if c = '"' then some ([], rest)
    else if c = '\\' then
      match rest with
      | [] => none
      | d :: rest2 => (parseStrAux rest2).map (fun p => (d :: p.1, p.2))
    else (parseStrAux rest).map (fun p => (c :: p.1, p.2))

/-- Parse a double-quoted string literal. -/
def parseStr : List Char → Option (String × List Char)
  | [] => none
  | c :: rest =>
    if c = '"' then (parseStrAux rest).map (fun p => (String.mk p.1, p.2)) else none

/-- Consume a maximal run of decimal digits, accumulating their value. -/
def parseDigitsAux (acc : Nat) : List Char → Nat × List Char
  | [] => (acc, [])
  | c :: rest =>
    if isDigitChar c then parseDigitsAux (10 * acc + charDigit c) rest
    else (acc, c :: rest)

/-- Parse a nonempty decimal natural number. -/
def parseNat : List Char → Option (Nat × List Char)
  | [] => none
  | c :: rest => if isDigitChar c then some (parseDigitsAux (charDigit c) rest) else none

/-- Parse a decimal integer with optional `-` sign. -/
def parseInt : List Char → Option (Int × List Char)
  | [] => none
  | c :: rest =>
    if c = '-' then (parseNat rest).map (fun p => (-(p.1 : Int), p.2))
    else (parseNat (c :: rest)).map (fun p => ((p.1 : Int), p.2))

/-- Parse a `days_to_expiration` field value. -/
def parseResult (input : List Char) : Option (Except String (Option Int) × List Char) :=
  match dropLit "Ok(None)".data input with
  | some rest => some (.ok none, rest)
  | none =>
    match dropLit "Ok(Some(".data input with
    | some rest =>
      match parseInt rest with
      | some (i, rest2) =>
        match dropLit "))".data rest2 with
        | some rest3 => some (.ok (some i), rest3)
        | none => none
      | none => none
    | none =>
      match dropLit "Err(".data input with
      | some rest =>
        match parseStr rest with
        | some (s, rest2) =>
          match dropLit ")".data rest2 with
          | some rest3 => some (.error s, rest3)
          | none => none
        | none => none
      | none => none

/-- Parse one `KeyInfo` record. -/
def parseEntry (input : List Char) : Option (KeyInfo × List Char) :=
  match dropLit "(email:".data input with
  | some rest =>
    match parseStr rest with
    | some (email, rest2) =>
      match dropLit ",days:".data rest2 with
      | some rest3 =>
        match parseResult rest3 with
        | some (r, rest4) =>
          match dropLit ")".data rest4 with
          | some rest5 => some (⟨email, r⟩, rest5)
          | none => none
        | none => none
      | none => none
    | none => none
  | none => none

/-- Parse the comma-terminated record sequence up to the closing `]`.
`fuel` bounds the recursion; each iteration consumes at least one
character, so the input length is always enough fuel. -/
def parseEntries : Nat → List Char → Option (List KeyInfo × List Char)
  | _, ']' :: rest => some ([], rest)
  | 0, _ => none
  | fuel + 1, input =>
    match parseEntry input with
    | none => none
    | some (e, rest) =>
      match dropLit [','] rest with
      | none => none
      | some rest2 => (parseEntries fuel rest2).map (fun p => (e :: p.1, p.2))

/-- Deserialize a snapshot: the whole input must be one bracketed record
sequence. -/
def decode (input : List Char) : Option (List KeyInfo) :=
  match input with
  | '[' :: rest =>
    match parseEntries rest.length rest with
    | some (l, rest2) => if rest2 = [] then some l else none
    | none => none
  | _ => none

/-! ## The refresh batch (`cron`, main.rs lines 68–101) and the snapshot
loader (`get_results`, lines 103–108)

Both are embedded as pure functions over `Env` that also return the ordered
trace of network/file events the run performs.  Network activity is
`netRequest`/`netResponse` (the WKD GET of `get_cert` and the arrival of its
body); file activity is the `File::open` of the state file and the
`File::create`/write of the refresh.  `StreamExt::then` drives the
per-email futures strictly one at a time (each future is awaited to
completion before the next element is taken from the stream), so the batch
trace is the concatenation of the per-email event blocks in input order. -/

/-- One observable side effect of a run. -/
inductive Event where
  | netRequest (email : String)
  | netResponse (email : String)
  | fileOpen (path : String)
  | fileCreate (path : String)
  | fileWrite (path : String)
deriving DecidableEq

/-- Formalization of "no inter-identity ordering dependency / one
identity's resolution does not delay the start of the others" for a trace:
whenever the trace contains the response of one identity at position `i`
and the request of a *different* identity at position `j`, the request was
already issued before the response arrived (`j < i`).  A concurrent
dispatch (all evaluations started eagerly, then awaited) satisfies this;
a strictly sequential dispatch does not. -/
def crossDelayFree (tr : List Event) : Bool :=
  (List.range tr.length).all (fun i =>
    (List.range tr.length).all (fun j =>
      match tr[i]?, tr[j]? with
      | some (.netResponse x), some (.netRequest y) =>
        if x = y then true else decide (j < i)
      | _, _ => true))

/-- The events of one `get_days_to_expiration` call: an email whose WKD URL
cannot be built fails before any request; a failed fetch issues the request
but obtains no usable response; a successful fetch issues the request and
receives the body. -/
def evalEvents (resolver : String → FetchOutcome) (email : String) : List Event :=
  match resolver email with
  | .noRequest _ => []
  | .failed _ => [.netRequest email]
  | .cert _ => [.netRequest email, .netResponse email]

/-- Helper for `splitSpace`: `acc` is the reversed current field. -/
def splitSpaceAux (acc : List Char) : List Char → List String
  | [] => [String.mk acc.reverse]
  | c :: rest =>
    if c = ' ' then String.mk acc.reverse :: splitSpaceAux [] rest
    else splitSpaceAux (c :: acc) rest

/-- Embedding of Rust `str::split(' ')`: splits at every space, keeping
empty fields (the empty string yields one empty field). -/
def splitSpace (s : String) : List String := splitSpaceAux [] s.data

/-- Embedding of `get_state_filename`: `<MUNIN_PLUGSTATE>/pgp_expiration`,
an error when the environment variable is missing. -/
def get_state_filename (env : Env) : Except String String :=
  match env.plugstate with
  | none => .error "Failed to get env MUNIN_PLUGSTATE"
  | some dir => .ok (dir ++ "/pgp_expiration")

/-- The per-identity outcomes of one batch (main.rs lines 80–91): one
`KeyInfo` per email, in input order, each depending only on its own email;
a failed evaluation is captured as `Err(format!("Error: {:#}", e))`. -/
def batchResults (resolver : String → FetchOutcome) (emails : List String)
    (now : Int) : List KeyInfo :=
  emails.map (fun email =>
    ⟨email, (get_days_to_expiration resolver email now).mapError
      (fun e => "Error: " ++ e)⟩)

/-- The network events of one batch: the per-email blocks concatenated in
input order (`StreamExt::then` awaits each future before the next starts). -/
def batchEvents (resolver : String → FetchOutcome) (emails : List String) : List Event :=
  emails.flatMap (evalEvents resolver)

/-- Result of a `cron` run: its event trace, its `Result`, and the bytes
written to the state file (when the write happened and succeeded). -/
structure CronOut where
  events : List Event
  result : Except String (List KeyInfo)
  written : Option (List Char)
deriving DecidableEq

/-- Embedding of `cron`: read env `emails` (fatal if missing, before any
network or file activity), split on spaces, evaluate every email via the
sequential stream, then resolve the state filename (fatal if
`MUNIN_PLUGSTATE` is missing — only *after* the whole batch has run),
create the state file and serialize the results into it. -/
def cron (env : Env) (now : Int) : CronOut :=
  match env.emails with
  | none => ⟨[], .error "Failed to get env emails", none⟩
  | some s =>
    let emails := splitSpace s
    let results := batchResults env.resolver emails now
    let events := batchEvents env.resolver emails
    match get_state_filename env with
    | .error e => ⟨events, .error e, none⟩
    | .ok path =>
      if env.createOk then
        if env.writeOk then
          ⟨events ++ [.fileCreate path, .fileWrite path], .ok results,
            some (encode results)⟩
        else
          ⟨events ++ [.fileCreate path, .fileWrite path],
            .error "Failed to write state file", none⟩
      else
        ⟨events ++ [.fileCreate path], .error "Failed to create state file", none⟩

/-- Embedding of `get_results`: resolve the state filename (fatal if the
state directory is missing), try `File::open`; on success deserialize (any
deserialization failure is fatal); on *any* open error (`Err(_)`) fall back
to a fresh `cron` run. -/
def get_results (env : Env) (now : Int) : List Event × Except String (List KeyInfo) :=
  match get_state_filename env with
  | .error e => ([], .error e)
  | .ok path =>
    match env.stateOpen with
    | .ok contents =>
      ([.fileOpen path],
        match decode contents with
        | some l => .ok l
        | none => .error "Failed to read state file")
    | _ =>
      let c := cron env now
      (.fileOpen path :: c.events, c.result)

/-! ## Output rendering (`config`, main.rs lines 118–148; `fetch`,
lines 150–169)

Both renderers are embedded over a snapshot.  `config` is modelled as the
list of lines printed after the two graph header lines, per entry; `fetch`
as the list of `fieldname.value` records printed. -/

/-- The configuration-mode lines printed for one entry: `NoExpiration`
entries are skipped; `Days` entries print label/warning/critical; `Failed`
entries print label/warning/critical and an `extinfo` line with the
diagnostic. -/
def configEntryLines (ki : KeyInfo) : List String :=
  let fieldname := clean_fieldname ki.email
  match ki.days_to_expiration with
  | .ok none => []
  | .ok (some _) =>
    ["_" ++ fieldname ++ ".label " ++ ki.email,
     "_" ++ fieldname ++ ".warning 14:",
     "_" ++ fieldname ++ ".critical 7:"]
  | .error e =>
    ["_" ++ fieldname ++ ".label " ++ ki.email,
     "_" ++ fieldname ++ ".warning 14:",
     "_" ++ fieldname ++ ".critical 7:",
     "_" ++ fieldname ++ ".extinfo " ++ e]

/-- Embedding of `config`: the graph header followed by the per-entry
blocks in snapshot order. -/
def config (results : List KeyInfo) : List String :=
  ["graph_title OpenPGP key expiration", "graph_vlabel days to expiration"] ++
    results.flatMap configEntryLines

/-- One `fieldname.value` record of value-mode output. -/
structure ValueRecord where
  fieldname : String
  value : Int
deriving DecidableEq

/-- The value-mode records printed for one entry: `Days(d)` prints `d`,
`NoExpiration` prints nothing, `Failed` prints the sentinel `-999`. -/
def fetchEntryRecords (ki : KeyInfo) : List ValueRecord :=
  match ki.days_to_expiration with
  | .ok none => []
  | .ok (some d) => [⟨"_" ++ clean_fieldname ki.email, d⟩]
  | .error _ => [⟨"_" ++ clean_fieldname ki.email, -999⟩]

/-- Embedding of `fetch`: the records printed, in snapshot order. -/
def fetch (results : List KeyInfo) : List ValueRecord :=
  results.flatMap fetchEntryRecords

/-- Concrete certificate fixture: one non-revoked policy-valid key expiring
at second 864000 (day 10), one non-revoked policy-valid key without
expiration, one policy-rejected key expiring immediately. -/
def cert0 : Cert := [⟨true, false, some 864000⟩, ⟨true, false, none⟩, ⟨false, false, some 0⟩]

/-- Fixture resolver answering every email with `cert0`. -/
def resolver0 : String → FetchOutcome := fun _ => .cert cert0

/-- Fixture resolver that fails to build a WKD URL for `"bad"` and answers
`cert0` otherwise. -/
def resolver2 : String → FetchOutcome := fun email =>
  if email = "bad" then .noRequest "Failed to parse email address" else .cert cert0

/-- Fixture environment for C2: the state file is present but unreadable
(`File::open` fails with an error other than not-found); everything else is
well-formed. -/
def envC2 : Env :=
  ⟨some "a@x.y", some "/var/munin", resolver0, .otherError, true, true⟩

/-- Fixture environment for C3: the identity list is set, the state
directory (`MUNIN_PLUGSTATE`) is missing. -/
def envC3 : Env := ⟨some "a@x.y", none, resolver0, .notFound, true, true⟩

/-- Fixture environment for C4: two identities, everything well-formed, no
cached snapshot. -/
def envC4 : Env :=
  ⟨some "a@x.y b@x.y", some "/var/munin", resolver0, .notFound, true, true⟩

instance : Std.Antisymm (fun (a b : Int) => a ≤ b) :=
  ⟨fun h1 h2 => le_antisymm h1 h2⟩

/-! ## Theorems -/

/-- A legal leading character is also a legal word character. -/
theorem isWordChar_of_isLeadChar {c : Char} (h : isLeadChar c = true) :
    isWordChar c = true := by
  simp [isLeadChar] at h; simp [isWordChar]; tauto

/-- `Iterator::min` on a nonempty list of `i64` returns an element that is a
lower bound of the list. -/
theorem min?_spec {l : List Int} (h : l ≠ []) :
    ∃ m, l.min? = some m ∧ m ∈ l ∧ ∀ b ∈ l, m ≤ b := by
  cases hm : l.min? with
  | none => exact absurd (List.min?_eq_none_iff.mp hm) h
  | some m =>
    have hs := (List.min?_eq_some_iff (fun a => le_refl a) (fun a b => min_choice a b)
      (fun a b c => le_min_iff)).mp hm
    exact ⟨m, rfl, hs.1, hs.2⟩

/-- Consuming a literal off itself leaves the tail. -/
theorem dropLit_self (lit : List Char) (rest : List Char) :
    dropLit lit (lit ++ rest) = some rest := by
  induction lit with
  | nil => rfl
  | cons c lit ih => simp [dropLit, ih]

/-- Round-trip of the string-body escape encoding. -/
theorem parseStrAux_enc (l : List Char) (rest : List Char) :
    parseStrAux (l.flatMap encStrChar ++ '"' :: rest) = some (l, rest) := by
  induction l with
  | nil =>
    rw [List.flatMap_nil, List.nil_append, parseStrAux.eq_def]
    simp
  | cons c l ih =>
    by_cases hc : c = '"' ∨ c = '\\'
    · simp only [List.flatMap_cons, encStrChar, if_pos hc, List.cons_append, List.append_assoc]
      rw [parseStrAux.eq_def]
      simp [ih]
    · push_neg at hc
      simp only [List.flatMap_cons, encStrChar, hc.1, hc.2, if_neg, List.cons_append,
        not_false_eq_true, or_self]
      rw [parseStrAux.eq_def]
      simp [hc.1, hc.2, ih]

/-- Round-trip of string literals. -/
theorem parseStr_enc (s : String) (rest : List Char) :
    parseStr (encStr s ++ rest) = some (s, rest) := by
  rw [encStr, List.cons_append, parseStr.eq_def]
  simp [parseStrAux_enc]

/-- Digit-value/digit-character round-trip. -/
theorem charDigit_digitChar {d : Nat} (h : d < 10) : charDigit (digitChar d) = d := by
  interval_cases d <;> decide

/-- A digit character is recognized as a digit. -/
theorem isDigitChar_digitChar {d : Nat} (h : d < 10) : isDigitChar (digitChar d) = true := by
  interval_cases d <;> decide

/-- `parseDigitsAux` consumes exactly a run of digit characters and folds
their values. -/
theorem parseDigitsAux_spec (ds : List Char) (h : ∀ c ∈ ds, isDigitChar c = true) :
    ∀ (acc : Nat) (rest : List Char), headIsDigit rest = false →
    parseDigitsAux acc (ds ++ rest) =
      (ds.foldl (fun a c => 10 * a + charDigit c) acc, rest) := by
  induction ds with
  | nil =>
    intro acc rest hrest
    cases rest with
    | nil => rfl
    | cons c r =>
      simp only [List.nil_append, List.foldl_nil, parseDigitsAux]
      simp only [headIsDigit] at hrest
      simp [hrest]
  | cons c ds ih =>
    intro acc rest hrest
    have hc : isDigitChar c = true := h c (List.mem_cons_self c ds)
    simp only [List.cons_append, parseDigitsAux, hc, if_pos, List.foldl_cons]
    exact ih (fun x hx => h x (List.mem_cons_of_mem c hx)) _ rest hrest

/-- The base-10 digit fold equals `Nat.ofDigits`. -/
theorem foldr_eq_ofDigits (l : List Nat) :
    l.foldr (fun d a => 10 * a + d) 0 = Nat.ofDigits 10 l := by
  induction l with
  | nil => simp [Nat.ofDigits]
  | cons d l ih => simp [Nat.ofDigits, ih]; ring

/-- Folding digit characters through `charDigit` is folding the digits. -/
theorem foldr_charDigit (l : List Nat) (h : ∀ d ∈ l, d < 10) :
    l.foldr (fun x y => 10 * y + charDigit (digitChar x)) 0 =
      l.foldr (fun d a => 10 * a + d) 0 := by
  induction l with
  | nil => rfl
  | cons a l ihl =>
    have ha : a < 10 := h a (List.mem_cons_self a l)
    have htail : ∀ d ∈ l, d < 10 := fun d hdm => h d (List.mem_cons_of_mem a hdm)
    simp only [List.foldr_cons, ihl htail, charDigit_digitChar ha]

/-- Every character of a decimal encoding is a digit. -/
theorem encNat_all_digits (n : Nat) : ∀ c ∈ encNat n, isDigitChar c = true := by
  intro c hc
  rw [encNat] at hc
  by_cases h0 : n = 0
  · rw [if_pos h0] at hc
    simp at hc
    subst hc; decide
  · rw [if_neg h0] at hc
    simp only [List.mem_map, List.mem_reverse] at hc
    obtain ⟨d, hdm, rfl⟩ := hc
    exact isDigitChar_digitChar (Nat.digits_lt_base (by norm_num) hdm)

/-- A decimal encoding is nonempty. -/
theorem encNat_ne_nil (n : Nat) : encNat n ≠ [] := by
  rw [encNat]
  by_cases h0 : n = 0
  · simp [h0]
  · rw [if_neg h0]
    simp only [ne_eq, List.map_eq_nil_iff, List.reverse_eq_nil_iff]
    exact Nat.digits_ne_nil_iff_ne_zero.mpr h0

/-- Round-trip of natural-number literals, given the tail does not continue
with a digit. -/
theorem parseNat_enc (n : Nat) (rest : List Char) (h : headIsDigit rest = false) :
    parseNat (encNat n ++ rest) = some (n, rest) := by
  by_cases h0 : n = 0
  · subst h0
    have hz := parseDigitsAux_spec [] (by simp) 0 rest h
    simp only [encNat, if_pos rfl, List.cons_append, List.nil_append, parseNat]
    norm_num [isDigitChar, charDigit]
    simpa using hz
  · have hd : ∀ d ∈ Nat.digits 10 n, d < 10 := fun d hdm =>
      Nat.digits_lt_base (by norm_num) hdm
    have hne : Nat.digits 10 n ≠ [] := Nat.digits_ne_nil_iff_ne_zero.mpr h0
    have hrev : (Nat.digits 10 n).reverse ≠ [] := by simpa using hne
    obtain ⟨c, tl, hct⟩ : ∃ c tl, ((Nat.digits 10 n).reverse).map digitChar = c :: tl := by
      cases hx : ((Nat.digits 10 n).reverse).map digitChar with
      | nil => exact absurd (by simpa using hx) hrev
      | cons a b => exact ⟨a, b, rfl⟩
    have hall : ∀ x ∈ ((Nat.digits 10 n).reverse).map digitChar, isDigitChar x = true := by
      intro x hx
      simp only [List.mem_map, List.mem_reverse] at hx
      obtain ⟨d, hdm, rfl⟩ := hx
      exact isDigitChar_digitChar (hd d hdm)
    have hcd : isDigitChar c = true := hall c (by rw [hct]; exact List.mem_cons_self c tl)
    have htl : ∀ x ∈ tl, isDigitChar x = true := fun x hx =>
      hall x (by rw [hct]; exact List.mem_cons_of_mem c hx)
    rw [encNat, if_neg h0, hct, List.cons_append, parseNat]
    rw [if_pos hcd]
    rw [parseDigitsAux_spec tl htl (charDigit c) rest h]
    have hfold : (c :: tl).foldl (fun a x => 10 * a + charDigit x) 0 = n := by
      rw [← hct, List.foldl_map, List.foldl_reverse]
      rw [foldr_charDigit (Nat.digits 10 n) hd, foldr_eq_ofDigits, Nat.ofDigits_digits]
    have hstep : List.foldl (fun a x => 10 * a + charDigit x) (charDigit c) tl = n := by
      simpa [List.foldl_cons] using hfold
    rw [hstep]

/-- Round-trip of integer literals, given the tail does not continue with a
digit. -/
theorem parseInt_enc (i : Int) (rest : List Char) (h : headIsDigit rest = false) :
    parseInt (encInt i ++ rest) = some (i, rest) := by
  by_cases hneg : i < 0
  · rw [encInt, if_pos hneg, List.cons_append]
    simp only [parseInt.eq_def]
    rw [if_pos trivial, parseNat_enc i.natAbs rest h]
    simp only [Option.map_some']
    have hni : -((i.natAbs : Nat) : Int) = i := by omega
    rw [hni]
  · obtain ⟨c, tl, hct⟩ : ∃ c tl, encNat i.natAbs = c :: tl := by
      cases hx : encNat i.natAbs with
      | nil => exact absurd hx (encNat_ne_nil i.natAbs)
      | cons a b => exact ⟨a, b, rfl⟩
    have hcd : isDigitChar c = true :=
      encNat_all_digits i.natAbs c (by rw [hct]; exact List.mem_cons_self c tl)
    have hcne : c ≠ '-' := by
      intro hcc; subst hcc; exact absurd hcd (by decide)
    rw [encInt, if_neg hneg, hct, List.cons_append]
    simp only [parseInt.eq_def]
    rw [if_neg hcne, ← List.cons_append, ← hct, parseNat_enc i.natAbs rest h]
    simp only [Option.map_some']
    have hni : ((i.natAbs : Nat) : Int) = i := by omega
    rw [hni]

/-- Round-trip of the `days_to_expiration` field encoding. -/
theorem parseResult_enc (r : Except String (Option Int)) (rest : List Char) :
    parseResult (encResult r ++ rest) = some (r, rest) := by
  match r with
  | .ok none =>
    simp [encResult, parseResult, dropLit]
  | .ok (some i) =>
    have h2 : headIsDigit (')' :: ')' :: rest) = false := by
      simp [headIsDigit, isDigitChar]
    simp only [encResult, List.append_assoc, parseResult]
    simp [dropLit, parseInt_enc i (')' :: ')' :: rest) h2]
  | .error e =>
    simp only [encResult, List.append_assoc, parseResult]
    simp [dropLit, parseStr_enc]

/-- Round-trip of one record encoding. -/
theorem parseEntry_enc (ki : KeyInfo) (rest : List Char) :
    parseEntry (encEntry ki ++ rest) = some (ki, rest) := by
  simp [encEntry, List.append_assoc, parseEntry, dropLit, parseStr_enc,
    parseResult_enc]

/-- `parseEntries` on a non-`]` head spends one unit of fuel on one record. -/
theorem parseEntries_step (fuel : Nat) (c : Char) (hc : c ≠ ']') (t : List Char) :
    parseEntries (fuel + 1) (c :: t) =
      match parseEntry (c :: t) with
      | none => none
      | some (e, rest) =>
        match dropLit [','] rest with
        | none => none
        | some rest2 => (parseEntries fuel rest2).map (fun p => (e :: p.1, p.2)) := by
  rw [parseEntries.eq_def]
  simp [hc]

/-- Round-trip of the comma-terminated record sequence, for any sufficient
fuel. -/
theorem parseEntries_enc (l : List KeyInfo) (rest : List Char) :
    ∀ fuel, l.length ≤ fuel →
    parseEntries fuel ((l.flatMap (fun e => encEntry e ++ [','])) ++ ']' :: rest) =
      some (l, rest) := by
  induction l with
  | nil =>
    intro fuel _
    cases fuel <;> simp [parseEntries]
  | cons e l ih =>
    intro fuel hf
    cases fuel with
    | zero => simp at hf
    | succ fuel =>
      have hlen : l.length ≤ fuel := by simpa using hf
      have hblock : ((e :: l).flatMap (fun x => encEntry x ++ [','])) ++ ']' :: rest =
          encEntry e ++ (',' :: ((l.flatMap (fun x => encEntry x ++ [','])) ++ ']' :: rest)) := by
        simp [List.flatMap_cons]
      obtain ⟨t, ht⟩ : ∃ t, encEntry e = '(' :: t := ⟨_, rfl⟩
      rw [hblock, ht, List.cons_append]
      rw [parseEntries_step fuel '(' (by decide)]
      rw [← List.cons_append, ← ht, parseEntry_enc]
      simp only [dropLit, if_true]
      simp only [ih _ hlen, Option.map_some']

/-- The record sequence is at least as long as the snapshot, so the input
length is always enough fuel. -/
theorem length_le_flatMap (s : List KeyInfo) :
    s.length ≤ (s.flatMap (fun e => encEntry e ++ [','])).length := by
  induction s with
  | nil => simp
  | cons e s ih =>
    simp only [List.flatMap_cons, List.length_cons, List.length_append]
    omega

/-- Round-trip of the snapshot serialization: decoding an encoded snapshot
returns it exactly. -/
theorem decode_encode (s : List KeyInfo) : decode (encode s) = some s := by
  rw [encode, decode.eq_1]
  have hsplit : (s.flatMap (fun e => encEntry e ++ [','])) ++ [']'] =
      (s.flatMap (fun e => encEntry e ++ [','])) ++ ']' :: [] := rfl
  rw [hsplit]
  rw [parseEntries_enc s [] _ (by
    simp only [List.length_append, List.length_cons, List.length_nil]
    have := length_le_flatMap s
    omega)]
  rfl

/-- C1 counterexample: the claim says a leading underscore is *prepended*
when the sanitized result would not start with a letter or underscore, but
`clean_fieldname` (the regex) *replaces* the offending leading character:
on `"9abc"` the code yields `"_abc"`, the claimed behavior
(`spec_clean_fieldname`) yields `"_9abc"`. -/
theorem C1_counterexample :
    clean_fieldname "9abc" = "_abc" ∧ spec_clean_fieldname "9abc" = "_9abc" ∧
    clean_fieldname "9abc" ≠ spec_clean_fieldname "9abc" := by
  refine ⟨by decide, by decide, by decide⟩

/-- C1 (amended): for every input string, `clean_fieldname` returns a string
containing only characters in `[A-Za-z0-9_]`, of the same length as the
input (so nothing is prepended); if the result is nonempty it starts with a
letter or underscore, a bad leading character having been *replaced* by
`_`; and it maps `"foo.bar@example.com"` to `"foo_bar_example_com"`. -/
theorem C1_amended (s : String) :
    (∀ c ∈ (clean_fieldname s).data, isWordChar c = true) ∧
    (clean_fieldname s).length = s.length ∧
    (∀ c l, (clean_fieldname s).data = c :: l → isLeadChar c = true) ∧
    clean_fieldname "foo.bar@example.com" = "foo_bar_example_com" := by
  rcases s with ⟨l⟩
  cases l with
  | nil =>
    refine ⟨?_, rfl, ?_, by decide⟩
    · intro c hc; simp [clean_fieldname] at hc
    · intro c l hc; simp [clean_fieldname] at hc
  | cons a rest =>
    refine ⟨?_, ?_, ?_, by decide⟩
    · intro c hc
      simp [clean_fieldname] at hc
      rcases hc with h | ⟨d, _, h⟩
      · by_cases ha : isLeadChar a
        · simp [ha] at h; subst h; exact isWordChar_of_isLeadChar ha
        · simp [ha] at h; subst h; decide
      · by_cases hd : isWordChar d
        · simp [hd] at h; subst h; exact hd
        · simp [hd] at h; subst h; decide
    · simp [clean_fieldname, String.length]
    · intro c l hc
      simp [clean_fieldname] at hc
      rcases hc with ⟨h, -⟩
      by_cases ha : isLeadChar a
      · simp [ha] at h; subst h; exact ha
      · simp [ha] at h; subst h; decide

/-- Witness for C1 (amended) at the concrete input `"9abc"`
(`clean_fieldname "9abc" = "_abc"`). -/
theorem C1_amended_witness : isWordChar 'a' = true ∧ isLeadChar '_' = true :=
  ⟨(C1_amended "9abc").1 'a' (by decide),
   (C1_amended "9abc").2.2.1 '_' ['a', 'b', 'c'] (by decide)⟩

/-- C5: for an identity whose credential resolves to a certificate, the
evaluator returns the minimum, over keys that satisfy the verification
policy at the reference time, are not revoked, and declare an expiration,
of `(expiration - now)` in whole days truncated toward zero (`Int.tdiv`,
negative values preserved); it returns `.ok none` (no-expiration marker)
when no such key declares an expiration; and it returns an error when
`get_cert` fails at any stage. -/
theorem C5_evaluator (resolver : String → FetchOutcome) (email : String) (now : Int) :
    (∀ c, resolver email = .cert c →
      ((∀ d, d ∈ eligibleDays c now ↔
          ∃ k ∈ c, k.policyOk = true ∧ k.revoked = false ∧
            ∃ t, k.expiration = some t ∧ d = Int.tdiv (t - now) 86400) ∧
       (eligibleDays c now = [] →
          get_days_to_expiration resolver email now = .ok none) ∧
       (eligibleDays c now ≠ [] →
          ∃ m, get_days_to_expiration resolver email now = .ok (some m) ∧
            m ∈ eligibleDays c now ∧ ∀ x ∈ eligibleDays c now, m ≤ x))) ∧
    (∀ msg, resolver email = .noRequest msg ∨ resolver email = .failed msg →
      get_days_to_expiration resolver email now =
        .error ("Failed to get certificate: " ++ msg)) := by
  constructor
  · intro c hc
    refine ⟨?_, ?_, ?_⟩
    · intro d
      simp only [eligibleDays, List.mem_filterMap, List.mem_filter,
        Option.map_eq_some', Bool.and_eq_true, Bool.not_eq_true']
      constructor
      · rintro ⟨k, ⟨hk, hp, hr⟩, t, ht, hd⟩
        exact ⟨k, hk, hp, hr, t, ht, hd.symm⟩
      · rintro ⟨k, hk, hp, hr, t, ht, hd⟩
        exact ⟨k, ⟨hk, hp, hr⟩, t, ht, hd.symm⟩
    · intro hnil
      simp [get_days_to_expiration, hc, List.min?_eq_none_iff, hnil]
    · intro hne
      obtain ⟨m, hm, hmem, hlb⟩ := min?_spec hne
      exact ⟨m, by simp [get_days_to_expiration, hc, hm], hmem, hlb⟩
  · rintro msg (h | h) <;> simp [get_days_to_expiration, h]

/-- Witness for C5 at the fixture certificate: `eligibleDays cert0 0 = [10]`
and the evaluator returns `.ok (some 10)`. -/
theorem C5_evaluator_witness :
    ∃ m, get_days_to_expiration resolver0 "a@b.c" 0 = .ok (some m) ∧
      m ∈ eligibleDays cert0 0 ∧ ∀ x ∈ eligibleDays cert0 0, m ≤ x :=
  ((C5_evaluator resolver0 "a@b.c" 0).1 cert0 rfl).2.2 (by decide)


/-- Fixture environment for C6: a well-formed environment whose state file
holds the saved encoding of a one-entry snapshot. -/
def envC6 : Env :=
  ⟨some "a@x.y", some "/var/munin", resolver0,
    .ok (encode [⟨"a@x.y", Except.ok (some 10)⟩]), true, true⟩

/-- C6: the snapshot round-trip: `decode (encode S) = some S` for every
snapshot `S`; a `get_results` run whose state file holds the saved bytes of
`S` loads exactly `S` (order and variants preserved by equality); and a
successful `cron` run writes exactly the encoding of the snapshot it
returns. -/
theorem C6_roundtrip (S : List KeyInfo) :
    decode (encode S) = some S ∧
    (∀ (env : Env) (now : Int) (dir : String), env.plugstate = some dir →
      env.stateOpen = .ok (encode S) → (get_results env now).2 = .ok S) ∧
    (∀ (env : Env) (now : Int), (cron env now).result = .ok S →
      (cron env now).written = some (encode S)) := by
  refine ⟨decode_encode S, ?_, ?_⟩
  · intro env now dir hdir hopen
    simp [get_results, get_state_filename, hdir, hopen, decode_encode S]
  · intro env now hres
    match henv : env.emails with
    | none => simp [cron, henv] at hres
    | some s =>
      match hps : env.plugstate with
      | none => simp [cron, henv, get_state_filename, hps] at hres
      | some dir =>
        by_cases hcr : env.createOk
        · by_cases hwr : env.writeOk
          · simp only [cron, henv, get_state_filename, hps, hcr, hwr, if_true] at hres ⊢
            obtain rfl : batchResults env.resolver (splitSpace s) now = S := by
              simpa using hres
            rfl
          · simp [cron, henv, get_state_filename, hps, hcr, hwr] at hres
        · simp [cron, henv, get_state_filename, hps, hcr] at hres

/-- Witness for C6 at a concrete one-entry snapshot and environment. -/
theorem C6_roundtrip_witness :
    (get_results envC6 0).2 = .ok [⟨"a@x.y", Except.ok (some 10)⟩] :=
  (C6_roundtrip [⟨"a@x.y", Except.ok (some 10)⟩]).2.1 envC6 0 "/var/munin" rfl rfl

/-- C2 counterexample: the claim says a read failure other than
file-not-found is fatal, but the code matches `Err(_)`: in `envC2` the
state file opens with an error that is *not* not-found, yet `get_results`
silently performs a fresh resolution and succeeds instead of failing. -/
theorem C2_counterexample :
    envC2.stateOpen = .otherError ∧
    (get_results envC2 0).2 = .ok [⟨"a@x.y", Except.ok (some 10)⟩] :=
  ⟨rfl, by decide⟩

/-- C2 (amended): file-not-found — and *any other* `File::open` failure —
triggers a fresh resolution batch; only a deserialization failure of a
successfully opened file is a fatal error propagated to the caller. -/
theorem C2_amended (env : Env) (now : Int) (dir : String)
    (hdir : env.plugstate = some dir) :
    (∀ contents, env.stateOpen = .ok contents →
      (∀ l, decode contents = some l → (get_results env now).2 = .ok l) ∧
      (decode contents = none →
        (get_results env now).2 = .error "Failed to read state file")) ∧
    ((env.stateOpen = .notFound ∨ env.stateOpen = .otherError) →
      get_results env now =
        (.fileOpen (dir ++ "/pgp_expiration") :: (cron env now).events,
          (cron env now).result)) := by
  constructor
  · intro contents hopen
    constructor
    · intro l hdec
      simp [get_results, get_state_filename, hdir, hopen, hdec]
    · intro hdec
      simp [get_results, get_state_filename, hdir, hopen, hdec]
  · rintro (h | h) <;> simp [get_results, get_state_filename, hdir, h]

/-- Witness for C2 (amended) at `envC2`: the non-not-found open error falls
back to the fresh `cron` run. -/
theorem C2_amended_witness :
    get_results envC2 0 =
      (.fileOpen ("/var/munin" ++ "/pgp_expiration") :: (cron envC2 0).events,
        (cron envC2 0).result) :=
  (C2_amended envC2 0 "/var/munin" rfl).2 (Or.inr rfl)

/-- C3 counterexample: with the identity list set but the state directory
missing, the `cron` verb *does* fail fatally with a descriptive message —
but only after the full network batch has run: the trace already contains
the request and response for `"a@x.y"`, contradicting "before any network
or file activity". -/
theorem C3_counterexample :
    (cron envC3 0).result = .error "Failed to get env MUNIN_PLUGSTATE" ∧
    (cron envC3 0).events = [.netRequest "a@x.y", .netResponse "a@x.y"] ∧
    (cron envC3 0).events ≠ [] := ⟨by decide, by decide, by decide⟩

/-- C3 (amended): a missing identity list aborts the refresh verb fatally
before any network or file activity; a missing state directory aborts the
refresh verb fatally, but only after the entire network batch has run
(though before any file write); on the verbs that read the snapshot first,
a missing state directory aborts before any network or file activity. -/
theorem C3_amended (env : Env) (now : Int) :
    (env.emails = none →
      cron env now = ⟨[], .error "Failed to get env emails", none⟩) ∧
    (∀ s, env.emails = some s → env.plugstate = none →
      cron env now = ⟨batchEvents env.resolver (splitSpace s),
        .error "Failed to get env MUNIN_PLUGSTATE", none⟩) ∧
    (env.plugstate = none →
      get_results env now = ([], .error "Failed to get env MUNIN_PLUGSTATE")) := by
  refine ⟨?_, ?_, ?_⟩
  · intro h; simp [cron, h]
  · intro s hs hp; simp [cron, hs, get_state_filename, hp]
  · intro hp; simp [get_results, get_state_filename, hp]

/-- Witness for C3 (amended) at `envC3`. -/
theorem C3_amended_witness :
    get_results envC3 0 = ([], .error "Failed to get env MUNIN_PLUGSTATE") :=
  (C3_amended envC3 0).2.2 rfl

/-- C4 counterexample: in a two-identity batch the full trace is strictly
sequential — the request for `"b@x.y"` is issued only after the response
for `"a@x.y"` has completed — so the trace is not cross-delay-free: one
identity's resolution delays the start of the other, contradicting the
claimed concurrent dispatch. -/
theorem C4_counterexample :
    (cron envC4 0).events =
      [.netRequest "a@x.y", .netResponse "a@x.y",
       .netRequest "b@x.y", .netResponse "b@x.y",
       .fileCreate "/var/munin/pgp_expiration",
       .fileWrite "/var/munin/pgp_expiration"] ∧
    crossDelayFree (cron envC4 0).events = false := ⟨by decide, by decide⟩

/-- C4 (amended): the per-identity evaluations of one batch execute
*sequentially* in input order (`StreamExt::then` awaits each future before
taking the next element): the batch trace is the concatenation of the
per-identity event blocks in input order, followed only by file events. -/
theorem C4_amended (env : Env) (now : Int) (s : String) (h : env.emails = some s) :
    ∃ fe, (cron env now).events = batchEvents env.resolver (splitSpace s) ++ fe ∧
      ∀ e ∈ fe, ∀ x, e ≠ .netRequest x ∧ e ≠ .netResponse x := by
  rcases hfn : get_state_filename env with e | path
  · exact ⟨[], by simp [cron, h, hfn], by simp⟩
  · by_cases hcr : env.createOk
    · by_cases hwr : env.writeOk
      · exact ⟨[.fileCreate path, .fileWrite path],
          by simp [cron, h, hfn, hcr, hwr], by simp⟩
      · exact ⟨[.fileCreate path, .fileWrite path],
          by simp [cron, h, hfn, hcr, hwr], by simp⟩
    · exact ⟨[.fileCreate path], by simp [cron, h, hfn, hcr], by simp⟩

/-- Witness for C4 (amended) at `envC4`. -/
theorem C4_amended_witness :
    ∃ fe, (cron envC4 0).events =
        batchEvents envC4.resolver (splitSpace "a@x.y b@x.y") ++ fe ∧
      ∀ e ∈ fe, ∀ x, e ≠ .netRequest x ∧ e ≠ .netResponse x :=
  C4_amended envC4 0 "a@x.y b@x.y" rfl

/-- C7: for every input identity sequence, the batch produces exactly one
entry per identity, in input order, each a function of its own identity
alone (so duplicates are evaluated independently and a failure cannot
affect any other entry); an identity whose resolution fails yields a
`Failed` entry carrying the diagnostic message. -/
theorem C7_batch (resolver : String → FetchOutcome) (emails : List String) (now : Int) :
    (batchResults resolver emails now).length = emails.length ∧
    (∀ k : Nat, (batchResults resolver emails now)[k]? =
      (emails[k]?).map (fun email =>
        (⟨email, (get_days_to_expiration resolver email now).mapError
          (fun e => "Error: " ++ e)⟩ : KeyInfo))) ∧
    (∀ (k : Nat) (email msg : String), emails[k]? = some email →
      (resolver email = .noRequest msg ∨ resolver email = .failed msg) →
      (batchResults resolver emails now)[k]? =
        some (⟨email, .error ("Error: Failed to get certificate: " ++ msg)⟩ : KeyInfo)) := by
  refine ⟨by simp [batchResults], ?_, ?_⟩
  · intro k
    simp [batchResults]
  · intro k email msg hk hr
    have hmsg : ("Error: " ++ ("Failed to get certificate: " ++ msg) : String) =
        "Error: Failed to get certificate: " ++ msg := by
      rw [← String.append_assoc]
      congr 1
    rcases hr with h | h <;>
      simp [batchResults, hk, get_days_to_expiration, h, Except.mapError, hmsg]

/-- Witness for C7: a two-identity batch where the second identity fails
resolution; its entry carries the diagnostic, in position. -/
theorem C7_batch_witness :
    (batchResults resolver2 ["a@x.y", "bad"] 0)[1]? =
      some ⟨"bad", .error
        "Error: Failed to get certificate: Failed to parse email address"⟩ :=
  (C7_batch resolver2 ["a@x.y", "bad"] 0).2.2 1 "bad"
    "Failed to parse email address" (by decide) (Or.inl (by decide))

/-- C8: value-mode rendering per outcome: a `Failed` outcome renders
exactly one record with the sentinel `-999`; a `NoExpiration` outcome
renders no record; a `Days(d)` outcome renders exactly one record with
value `d` (negative `d` included); consequently the output has exactly one
record per non-`NoExpiration` entry. -/
theorem C8_fetch (results : List KeyInfo) :
    (∀ ki ∈ results, ∀ e, ki.days_to_expiration = .error e →
      fetchEntryRecords ki = [⟨"_" ++ clean_fieldname ki.email, -999⟩]) ∧
    (∀ ki ∈ results, ki.days_to_expiration = .ok none →
      fetchEntryRecords ki = []) ∧
    (∀ ki ∈ results, ∀ d : Int, ki.days_to_expiration = .ok (some d) →
      fetchEntryRecords ki = [⟨"_" ++ clean_fieldname ki.email, d⟩]) ∧
    (fetch results).length =
      (results.filter
        (fun ki => decide (ki.days_to_expiration ≠ Except.ok none))).length := by
  refine ⟨?_, ?_, ?_, ?_⟩
  · intro ki _ e h; simp [fetchEntryRecords, h]
  · intro ki _ h; simp [fetchEntryRecords, h]
  · intro ki _ d h; simp [fetchEntryRecords, h]
  · induction results with
    | nil => rfl
    | cons ki l ih =>
      have hstep : fetch (ki :: l) = fetchEntryRecords ki ++ fetch l := by
        simp [fetch]
      rw [hstep, List.length_append, List.filter_cons]
      rcases hd : ki.days_to_expiration with e | o
      · simp [fetchEntryRecords, hd, ih]
        omega
      · rcases o with _ | d
        · simp [fetchEntryRecords, hd, ih]
        · simp [fetchEntryRecords, hd, ih]
          omega

/-- Witness for C8 at a one-entry snapshot with a negative day count. -/
theorem C8_fetch_witness :
    fetchEntryRecords ⟨"a@x.y", Except.ok (some (-3))⟩ =
      [⟨"_" ++ clean_fieldname "a@x.y", -3⟩] :=
  (C8_fetch [⟨"a@x.y", Except.ok (some (-3))⟩]).2.2.1
    ⟨"a@x.y", Except.ok (some (-3))⟩ (by decide) (-3) rfl

/-- C9 counterexample: a `Failed` entry's configuration record *does* carry
the numeric threshold lines — the block printed for it contains the same
`.warning 14:` and `.critical 7:` lines as a `Days` record, contradicting
"without numeric threshold semantics". -/
theorem C9_counterexample :
    configEntryLines ⟨"x@y.z", .error "boom"⟩ =
      ["_x_y_z.label x@y.z", "_x_y_z.warning 14:", "_x_y_z.critical 7:",
       "_x_y_z.extinfo boom"] ∧
    "_x_y_z.warning 14:" ∈ configEntryLines ⟨"x@y.z", .error "boom"⟩ ∧
    "_x_y_z.critical 7:" ∈ configEntryLines ⟨"x@y.z", .error "boom"⟩ :=
  ⟨by decide, by decide, by decide⟩

/-- C9 (amended): in configuration mode a `NoExpiration` outcome produces
no record; a `Days` outcome produces exactly one record (label plus the
fixed `warning 14:`/`critical 7:` threshold lines); a `Failed` outcome
produces exactly one record with those *same* threshold lines, additionally
annotated with its diagnostic message in an `extinfo` line. -/
theorem C9_amended (ki : KeyInfo) :
    (ki.days_to_expiration = .ok none → configEntryLines ki = []) ∧
    (∀ d : Int, ki.days_to_expiration = .ok (some d) →
      configEntryLines ki =
        ["_" ++ clean_fieldname ki.email ++ ".label " ++ ki.email,
         "_" ++ clean_fieldname ki.email ++ ".warning 14:",
         "_" ++ clean_fieldname ki.email ++ ".critical 7:"]) ∧
    (∀ e, ki.days_to_expiration = .error e →
      configEntryLines ki =
        ["_" ++ clean_fieldname ki.email ++ ".label " ++ ki.email,
         "_" ++ clean_fieldname ki.email ++ ".warning 14:",
         "_" ++ clean_fieldname ki.email ++ ".critical 7:",
         "_" ++ clean_fieldname ki.email ++ ".extinfo " ++ e]) := by
  refine ⟨?_, ?_, ?_⟩
  · intro h; simp [configEntryLines, h]
  · intro d h; simp [configEntryLines, h]
  · intro e h; simp [configEntryLines, h]

/-- Witness for C9 (amended) at a concrete `Failed` entry. -/
theorem C9_amended_witness :
    configEntryLines ⟨"x@y.z", .error "boom"⟩ =
      ["_" ++ clean_fieldname "x@y.z" ++ ".label " ++ "x@y.z",
       "_" ++ clean_fieldname "x@y.z" ++ ".warning 14:",
       "_" ++ clean_fieldname "x@y.z" ++ ".critical 7:",
       "_" ++ clean_fieldname "x@y.z" ++ ".extinfo " ++ "boom"] :=
  (C9_amended ⟨"x@y.z", .error "boom"⟩).2.2 "boom" rfl

/-- C10: every field name emitted in value mode and every line emitted in
configuration mode uses the sanitized email with one additional underscore
unconditionally prefixed; in particular the identity
`"foo.bar@example.com"` is emitted under `"_foo_bar_example_com"`, not
under its plain sanitization `"foo_bar_example_com"`. -/
theorem C10_fieldnames (results : List KeyInfo) :
    (∀ r ∈ fetch results, ∃ ki ∈ results,
      r.fieldname = "_" ++ clean_fieldname ki.email) ∧
    (∀ ki ∈ results, ∀ line ∈ configEntryLines ki, ∃ t : String,
      line = "_" ++ clean_fieldname ki.email ++ t) ∧
    ("_" ++ clean_fieldname "foo.bar@example.com" = "_foo_bar_example_com" ∧
     "_foo_bar_example_com" ≠ clean_fieldname "foo.bar@example.com") := by
  refine ⟨?_, ?_, by decide, by decide⟩
  · intro r hr
    rw [fetch, List.mem_flatMap] at hr
    obtain ⟨ki, hki, hrk⟩ := hr
    refine ⟨ki, hki, ?_⟩
    rcases hd : ki.days_to_expiration with e | o
    · simp [fetchEntryRecords, hd] at hrk
      rw [hrk]
    · rcases o with _ | d
      · simp [fetchEntryRecords, hd] at hrk
      · simp [fetchEntryRecords, hd] at hrk
        rw [hrk]
  · intro ki _ line hline
    rcases hd : ki.days_to_expiration with e | o
    · simp only [configEntryLines, hd, List.mem_cons, List.not_mem_nil,
        or_false] at hline
      rcases hline with h | h | h | h
      · exact ⟨".label " ++ ki.email, by rw [h, String.append_assoc, String.append_assoc]⟩
      · exact ⟨".warning 14:", by rw [h, String.append_assoc]⟩
      · exact ⟨".critical 7:", by rw [h, String.append_assoc]⟩
      · exact ⟨".extinfo " ++ e, by rw [h, String.append_assoc, String.append_assoc]⟩
    · rcases o with _ | d
      · simp [configEntryLines, hd] at hline
      · simp only [configEntryLines, hd, List.mem_cons, List.not_mem_nil,
          or_false] at hline
        rcases hline with h | h | h
        · exact ⟨".label " ++ ki.email, by rw [h, String.append_assoc, String.append_assoc]⟩
        · exact ⟨".warning 14:", by rw [h, String.append_assoc]⟩
        · exact ⟨".critical 7:", by rw [h, String.append_assoc]⟩

/-- Witness for C10 at a one-entry snapshot holding the spec's example
identity. -/
theorem C10_fieldnames_witness :
    ∃ ki ∈ [(⟨"foo.bar@example.com", Except.ok (some 5)⟩ : KeyInfo)],
      (⟨"_foo_bar_example_com", 5⟩ : ValueRecord).fieldname =
        "_" ++ clean_fieldname ki.email :=
  (C10_fieldnames [⟨"foo.bar@example.com", Except.ok (some 5)⟩]).1
    ⟨"_foo_bar_example_com", 5⟩ (by decide)

end MuninPgp
